import Mathlib

/-!
Shallow embedding of the logline-agent log-shipping agent (Rust sources:
`src/protocol.rs`, `src/tail.rs`, `src/connection.rs`, `src/main.rs`).

Bytes are modelled as `Nat` (values < 256 where the source guarantees it),
byte buffers as `List Nat`, machine integers as `Nat` with explicit
`% 2 ^ 32` where the source casts with `as u32`, and fallible operations
as `Option`/`Except`. Filesystem reads are modelled by passing the current
file content explicitly to the functions that read it.
-/

set_option maxRecDepth 4000

/-- Protocol version (`protocol.rs`: `PROTOCOL_VERSION`). -/
def PROTOCOL_VERSION : Nat := 1

/-- Message type identifiers (`protocol.rs`: `enum MessageType`). -/
inductive MessageType where
  | Handshake
  | LogData
  | Keepalive
deriving DecidableEq

/-- The discriminant byte of each message type (`protocol.rs`:
`#[repr(u8)]` values `Handshake = 0x01`, `LogData = 0x02`,
`Keepalive = 0xFF`; used by `encode` via `self.message_type as u8`). -/
def MessageType.toByte : MessageType → Nat
  | .Handshake => 0x01
  | .LogData => 0x02
  | .Keepalive => 0xFF

/-- Error kind of the only `std::io::Error` the connection constructs
itself (`connection.rs`: `ErrorKind::NotConnected`). -/
inductive IoErrorKind where
  | NotConnected
deriving DecidableEq

/-- Protocol errors (`protocol.rs`: `enum ProtocolError`). The `Io`
variant is rendered as `IoError` carrying the error kind and message. -/
inductive ProtocolError where
  | IoError (kind : IoErrorKind) (msg : String)
  | UnknownMessageType (b : Nat)
  | InvalidFrame (s : String)
  | Serialization (s : String)
deriving DecidableEq

/-- `protocol.rs`: `impl TryFrom<u8> for MessageType`. -/
def MessageType.tryFrom (value : Nat) : Except ProtocolError MessageType :=
  match value with
  | 0x01 => .ok .Handshake
  | 0x02 => .ok .LogData
  | 0xFF => .ok .Keepalive
  | _ => .error (.UnknownMessageType value)

/-- Big-endian byte decomposition of a `u32` (`protocol.rs`:
`(payload_len as u32).to_be_bytes()`; the `as u32` cast wraps mod `2^32`). -/
def u32_be (n : Nat) : List Nat :=
  let m := n % 2 ^ 32
  [m / 2 ^ 24 % 256, m / 2 ^ 16 % 256, m / 2 ^ 8 % 256, m % 256]

/-- Big-endian interpretation of a byte list as an unsigned integer. -/
def beDecode (bs : List Nat) : Nat :=
  bs.foldl (fun acc b => acc * 256 + b) 0

/-- A protocol frame (`protocol.rs`: `struct Frame`). -/
structure Frame where
  message_type : MessageType
  payload : List Nat
deriving DecidableEq

/-- `protocol.rs`: `Frame::new`. -/
def Frame.new (message_type : MessageType) (payload : List Nat) : Frame :=
  { message_type, payload }

/-- `protocol.rs`: `Frame::log_data`. -/
def Frame.log_data (data : List Nat) : Frame :=
  Frame.new .LogData data

/-- `protocol.rs`: `Frame::keepalive`. -/
def Frame.keepalive : Frame :=
  Frame.new .Keepalive []

/-- `protocol.rs`: `Frame::encode`: 4-byte big-endian length
(`payload.len() + 1`), one type byte, then the payload verbatim. -/
def Frame.encode (f : Frame) : List Nat :=
  let payload_len := f.payload.length + 1
  u32_be payload_len ++ f.message_type.toByte :: f.payload

/-- Modelled from the spec: a frame decoder is not part of the agent's
sources (the agent only encodes; spec section 4.1 gives the wire format
`[4 bytes: big-endian u32 length = len(payload)+1][1 byte: message
type][payload bytes]` and says decoding an unrecognized type byte fails
with `UnknownMessageType`). Decodes one complete frame: the length field
must equal the number of remaining bytes after it. The type byte is
decoded with the source's `MessageType.tryFrom`. -/
def Frame.decode (bs : List Nat) : Option Frame :=
  match bs with
  | b0 :: b1 :: b2 :: b3 :: t :: rest =>
    let len := beDecode [b0, b1, b2, b3]
    if len = rest.length + 1 then
      match MessageType.tryFrom t with
      | .ok mt => some (Frame.new mt rest)
      | .error _ => none
    else none
  | _ => none

/-- Lowercase hexadecimal digit, as used by serde_json's escape table. -/
def hexDigit (n : Nat) : Char :=
  if n < 10 then Char.ofNat (48 + n) else Char.ofNat (87 + n)

/-- JSON escaping of a single character, following serde_json: `"` and
`\` are backslash-escaped, the named control escapes are used for
backspace, tab, newline, form feed and carriage return, other control
characters become `\u00XX`, and everything else is emitted verbatim. -/
def jsonEscapeChar (c : Char) : String :=
  if c = '"' then "\\\""
  else if c = '\\' then "\\\\"
  else if c.toNat = 8 then "\\b"
  else if c.toNat = 9 then "\\t"
  else if c.toNat = 10 then "\\n"
  else if c.toNat = 12 then "\\f"
  else if c.toNat = 13 then "\\r"
  else if c.toNat < 32 then
    "\\u00" ++ String.singleton (hexDigit (c.toNat / 16))
      ++ String.singleton (hexDigit (c.toNat % 16))
  else String.singleton c

/-- A JSON string literal for `s` (quotes plus escaped content). -/
def jsonStringLit (s : String) : String :=
  "\"" ++ String.join (s.toList.map jsonEscapeChar) ++ "\""

/-- UTF-8 encoding of one code point. -/
def utf8Bytes (c : Nat) : List Nat :=
  if c < 0x80 then [c]
  else if c < 0x800 then [0xC0 + c / 64, 0x80 + c % 64]
  else if c < 0x10000 then
    [0xE0 + c / 4096, 0x80 + c / 64 % 64, 0x80 + c % 64]
  else
    [0xF0 + c / 262144, 0x80 + c / 4096 % 64, 0x80 + c / 64 % 64, 0x80 + c % 64]

/-- UTF-8 bytes of a string. -/
def strBytes (s : String) : List Nat :=
  (s.toList.map (fun c => utf8Bytes c.toNat)).flatten

/-- Handshake message payload (`protocol.rs`: `struct HandshakePayload`
with exactly two fields, `project_name: String` and `version: u8`). -/
structure HandshakePayload where
  project_name : String
  version : Nat
deriving DecidableEq

/-- `protocol.rs`: `HandshakePayload::new`. -/
def HandshakePayload.new (project_name : String) : HandshakePayload :=
  { project_name, version := PROTOCOL_VERSION }

/-- `serde_json::to_vec` applied to a `HandshakePayload`
(`protocol.rs`: `Frame::handshake`): fields are serialized in
declaration order, producing
`\x7b"project_name":<escaped>,"version":<n>\x7d`. -/
def HandshakePayload.toJsonBytes (p : HandshakePayload) : List Nat :=
  strBytes ("\x7b\"project_name\":" ++ jsonStringLit p.project_name
    ++ ",\"version\":" ++ toString p.version ++ "\x7d")

/-- `protocol.rs`: `Frame::handshake` (serde_json serialization of this
struct cannot fail, so the `Result` is modelled as total). -/
def Frame.handshake (project_name : String) : Frame :=
  Frame.new .Handshake (HandshakePayload.new project_name).toJsonBytes

/-- Whether `needle` occurs as a contiguous run at the head of `hay`. -/
def startsWithBytes : List Nat → List Nat → Bool
  | _, [] => true
  | [], _ :: _ => false
  | a :: hay, b :: needle => a == b && startsWithBytes hay needle

/-- Whether `needle` occurs as a contiguous run anywhere in `hay`. -/
def bytesContain (hay needle : List Nat) : Bool :=
  match hay with
  | [] => needle.isEmpty
  | _ :: rest => startsWithBytes hay needle || bytesContain rest needle

/-- File tail watcher state (`tail.rs`: `struct FileTail`; the `path`
field is replaced by passing the file's current content explicitly). -/
structure FileTail where
  offset : Nat
  buffer_size : Nat
deriving DecidableEq

/-- The loop of `tail.rs`: `FileTail::find_utf8_boundary`: starting at
absolute position `pos`, skip UTF-8 continuation bytes (`b & 0xC0 ==
0x80`); `rest` is the part of the buffer from `pos` on. -/
def utf8Scan : List Nat → Nat → Nat
  | [], pos => pos
  | b :: rest, pos => if b &&& 0xC0 = 0x80 then utf8Scan rest (pos + 1) else pos

/-- `tail.rs`: `FileTail::find_utf8_boundary`. -/
def FileTail.find_utf8_boundary (buffer : List Nat) (start : Nat) : Nat :=
  utf8Scan (buffer.drop start) start

/-- `tail.rs`: `FileTail::find_line_boundary`: read up to 4096 bytes
from `offset`, return one past the first newline if any, else fall back
to the first non-continuation byte position. -/
def FileTail.find_line_boundary (content : List Nat) (offset : Nat) : Nat :=
  let file_size := content.length
  if offset = 0 ∨ file_size ≤ offset then offset
  else
    let search_size := min 4096 (file_size - offset)
    let buffer := (content.drop offset).take search_size
    if buffer.length = 0 then offset
    else
      match buffer.findIdx? (fun b => b == 10) with
      | some pos => offset + pos + 1
      | none => FileTail.find_utf8_boundary buffer 0 + offset

/-- `tail.rs`: `FileTail::new` (start from the end of the file). -/
def FileTail.new (content : List Nat) : FileTail :=
  { offset := content.length, buffer_size := 64 * 1024 }

/-- `tail.rs`: `FileTail::from_start` (start from offset 0). -/
def FileTail.from_start : FileTail :=
  { offset := 0, buffer_size := 64 * 1024 }

/-- `tail.rs`: `FileTail::with_tail_bytes` (start from the last
`tail_bytes` bytes, corrected to a line boundary when mid-file). -/
def FileTail.with_tail_bytes (content : List Nat) (tail_bytes : Nat) : FileTail :=
  let file_size := content.length
  let offset := if file_size ≤ tail_bytes then 0 else file_size - tail_bytes
  let offset := if 0 < offset then FileTail.find_line_boundary content offset else offset
  { offset, buffer_size := 64 * 1024 }

/-- `tail.rs`: `FileTail::read_new_content`, given the file's current
content. Mirrors the source: reset the offset to 0 when the file shrank
below it, return `none` when there is nothing to read, otherwise read at
most `buffer_size` of the available bytes and advance the offset by the
bytes actually read (a successful read of available data is modelled as
filling the buffer). -/
def FileTail.read_new_content (t : FileTail) (content : List Nat) :
    Option (List Nat) × FileTail :=
  let current_size := content.length
  let offset1 := if current_size < t.offset then 0 else t.offset
  if current_size = offset1 then (none, { t with offset := offset1 })
  else
    let bytes_to_read := current_size - offset1
    let chunk := (content.drop offset1).take (min bytes_to_read t.buffer_size)
    if chunk.length = 0 then (none, { t with offset := offset1 })
    else (some chunk, { t with offset := offset1 + chunk.length })

/-- Connection state (`connection.rs`: `enum ConnectionState`). -/
inductive ConnectionState where
  | Disconnected
  | Connecting
  | Connected
  | Reconnecting (attempt : Nat)
deriving DecidableEq

/-- Connection configuration (`connection.rs`: `struct
ConnectionConfig`; durations are modelled in milliseconds). -/
structure ConnectionConfig where
  server_addr : String
  project_name : String
  connect_timeout : Nat
  initial_reconnect_delay : Nat
  max_reconnect_delay : Nat
deriving DecidableEq

/-- `connection.rs`: `ConnectionConfig::new` (defaults: 10 s connect
timeout, 1 s initial reconnect delay, 30 s max reconnect delay). -/
def ConnectionConfig.new (server_addr project_name : String) : ConnectionConfig :=
  { server_addr, project_name,
    connect_timeout := 10000,
    initial_reconnect_delay := 1000,
    max_reconnect_delay := 30000 }

/-- `connection.rs`: `struct Connection`. The buffered TCP writer is
modelled as the list of bytes written to the socket so far (`none` when
no stream is present). -/
structure Connection where
  config : ConnectionConfig
  stream : Option (List Nat)
  state : ConnectionState
deriving DecidableEq

/-- `connection.rs`: `Connection::new`. -/
def Connection.new (config : ConnectionConfig) : Connection :=
  { config, stream := none, state := .Disconnected }

/-- `connection.rs`: `Connection::connect`, success path: open a fresh
stream, write the handshake frame to it, store the stream and become
`Connected`. (Network failures abort before `self.stream` is set and
are handled by the caller's backoff; they are not modelled here.) -/
def Connection.connect (c : Connection) : Connection :=
  let writer : List Nat := (Frame.handshake c.config.project_name).encode
  { c with stream := some writer, state := .Connected }

/-- `connection.rs`: `Connection::send_data`: with no stream, fail with
a `NotConnected` I/O error touching nothing; otherwise append the
encoded LogData frame to the stream. -/
def Connection.send_data (c : Connection) (data : List Nat) :
    Except ProtocolError Unit × Connection :=
  match c.stream with
  | none => (.error (.IoError .NotConnected "Not connected"), c)
  | some w => (.ok (), { c with stream := some (w ++ (Frame.log_data data).encode) })

/-- `connection.rs`: `Connection::send_keepalive`: with no stream, fail
with a `NotConnected` I/O error touching nothing; otherwise append the
encoded Keepalive frame to the stream. -/
def Connection.send_keepalive (c : Connection) :
    Except ProtocolError Unit × Connection :=
  match c.stream with
  | none => (.error (.IoError .NotConnected "Not connected"), c)
  | some w => (.ok (), { c with stream := some (w ++ Frame.keepalive.encode) })

/-- `connection.rs`: `Connection::disconnect`. -/
def Connection.disconnect (c : Connection) : Connection :=
  { c with stream := none, state := .Disconnected }

/-- `connection.rs`: `Connection::is_connected`. -/
def Connection.is_connected (c : Connection) : Bool :=
  c.stream.isSome && c.state == .Connected

/-- The reconnect-delay bookkeeping of `ReconnectingConnection::run`
(`connection.rs`): given the current `delay` and the list of connect
outcomes (`true` = success), produce the list of waits actually slept,
one per failure. On success the delay resets to the initial value; on
failure the loop sleeps `delay` and then doubles it, capped at the
maximum. -/
def backoff_waits (initial max_delay : Nat) : Nat → List Bool → List Nat
  | _, [] => []
  | _, true :: rest => backoff_waits initial max_delay initial rest
  | delay, false :: rest =>
    delay :: backoff_waits initial max_delay (min (delay * 2) max_delay) rest

/-- Outcome of the consumer loop's queue receive with 100 ms timeout
(`connection.rs`: `tokio::time::timeout(.., rx.recv())`). -/
inductive RecvEvent where
  | recvData (data : List Nat)
  | chanClosed
  | recvTimeout
deriving DecidableEq

/-- A frame successfully written to the socket by one loop iteration. -/
inductive SentFrame where
  | logData (data : List Nat)
  | keepalive
deriving DecidableEq

/-- Consumer-loop bookkeeping of `ReconnectingConnection::run`
(`connection.rs`): whether the connection is up and the seconds elapsed
since `last_activity`. -/
structure RunState where
  connected : Bool
  since_activity : Nat
deriving DecidableEq

/-- One iteration of the `match result` arms of
`ReconnectingConnection::run` (`connection.rs`, the body executed while
connected), with the success of a socket write abstracted as `sendOk`.
Returns the frames written, the new state, and whether the loop
continues. On data: send a LogData frame, reset the activity clock on
success, disconnect on failure. On a closed channel: exit the loop. On
timeout: when more than 30 s have passed since the last activity, send
one Keepalive, resetting the clock on success and disconnecting on
failure. -/
def run_iter (st : RunState) (ev : RecvEvent) (sendOk : Bool) :
    List SentFrame × RunState × Bool :=
  match ev with
  | .recvData d =>
    if sendOk then ([.logData d], { st with since_activity := 0 }, true)
    else ([], { st with connected := false }, true)
  | .chanClosed => ([], st, false)
  | .recvTimeout =>
    if 30 < st.since_activity then
      if sendOk then ([.keepalive], { st with since_activity := 0 }, true)
      else ([], { st with connected := false }, true)
    else ([], st, true)

/-- The offset `read_new_content` actually reads from: the stored
offset, or 0 after detecting truncation (`tail.rs`, lines 140-143). -/
def read_start (t : FileTail) (content : List Nat) : Nat :=
  if content.length < t.offset then 0 else t.offset

/-- The number of bytes `read_new_content` reads: the available bytes
from `read_start`, capped at `buffer_size` (`tail.rs`, lines 154-156). -/
def read_len (t : FileTail) (content : List Nat) : Nat :=
  min (content.length - read_start t content) t.buffer_size

/-- Characterization of `read_new_content` in terms of `read_start` and
`read_len`: the two `none` paths of the source (no new data, or a read
of zero bytes) collapse into the `read_len = 0` case. -/
theorem read_new_content_eq (t : FileTail) (content : List Nat) :
    t.read_new_content content =
      if read_len t content = 0 then (none, { t with offset := read_start t content })
      else (some ((content.drop (read_start t content)).take (read_len t content)),
            { t with offset := read_start t content + read_len t content }) := by
  unfold FileTail.read_new_content read_len read_start
  dsimp only
  have hlen : ((content.drop (if content.length < t.offset then 0 else t.offset)).take
      (min (content.length - (if content.length < t.offset then 0 else t.offset)) t.buffer_size)).length
      = min (content.length - (if content.length < t.offset then 0 else t.offset)) t.buffer_size := by
    simp only [List.length_take, List.length_drop]
    split <;> omega
  by_cases h1 : content.length = (if content.length < t.offset then 0 else t.offset)
  · rw [if_pos h1]
    have : min (content.length - (if content.length < t.offset then 0 else t.offset)) t.buffer_size = 0 := by
      omega
    rw [if_pos this]
  · rw [if_neg h1]
    by_cases h2 : min (content.length - (if content.length < t.offset then 0 else t.offset)) t.buffer_size = 0
    · rw [if_pos h2, hlen, if_pos h2]
    · rw [hlen]

/-- `utf8Scan` never runs past the end of the buffer. -/
theorem utf8Scan_le (l : List Nat) : ∀ pos, utf8Scan l pos ≤ pos + l.length := by
  induction l with
  | nil => intro pos; simp [utf8Scan]
  | cons b rest ih =>
    intro pos
    simp only [utf8Scan]
    split
    · have := ih (pos + 1); simp; omega
    · simp

/-- `utf8Scan` skips exactly the leading UTF-8 continuation bytes. -/
theorem utf8Scan_eq_takeWhile (l : List Nat) :
    ∀ pos, utf8Scan l pos = pos + (l.takeWhile (fun b => b &&& 0xC0 == 0x80)).length := by
  induction l with
  | nil => intro pos; simp [utf8Scan]
  | cons b rest ih =>
    intro pos
    simp only [utf8Scan, List.takeWhile]
    by_cases hb : b &&& 0xC0 = 0x80
    · rw [if_pos hb]
      have hbeq : (b &&& 0xC0 == 0x80) = true := by simpa using hb
      rw [hbeq]
      simp only [List.length_cons]
      rw [ih (pos + 1)]
      omega
    · rw [if_neg hb]
      have hbeq : (b &&& 0xC0 == 0x80) = false := by simpa using hb
      rw [hbeq]
      simp

/-- A successful `findIdx?` yields an index within the list (shifted by
the start accumulator). -/
theorem findIdx?_some_lt (p : Nat → Bool) :
    ∀ (l : List Nat) (i j : Nat), List.findIdx? p l i = some j → j < i + l.length := by
  intro l
  induction l with
  | nil => intro i j h; simp [List.findIdx?] at h
  | cons a t ih =>
    intro i j h
    rw [List.findIdx?_cons] at h
    by_cases hp : p a
    · simp [hp] at h; simp; omega
    · simp [hp] at h
      obtain ⟨a, ha, rfl⟩ := h
      have := ih 0 a ha
      simp; omega

/-- Taking `min n (length l)` elements is the same as taking `n`. -/
theorem take_min_length (l : List Nat) (n : Nat) : l.take (min n l.length) = l.take n := by
  rcases Nat.le_total n l.length with h | h
  · rw [Nat.min_eq_left h]
  · rw [Nat.min_eq_right h, List.take_length, List.take_of_length_le h]

/-- `find_line_boundary` never moves the offset past the end of file. -/
theorem find_line_boundary_le (content : List Nat) (offset : Nat)
    (h : offset ≤ content.length) :
    FileTail.find_line_boundary content offset ≤ content.length := by
  unfold FileTail.find_line_boundary
  dsimp only
  split
  · exact h
  · rename_i hcond
    push_neg at hcond
    obtain ⟨h0, hlt⟩ := hcond
    split
    · exact h
    · split
      · rename_i pos hpos
        have := findIdx?_some_lt _ _ _ _ hpos
        simp [List.length_take, List.length_drop] at this
        omega
      · have h1 := utf8Scan_le (((content.drop offset).take (min 4096 (content.length - offset)))) 0
        simp only [FileTail.find_utf8_boundary, List.drop_zero]
        simp [List.length_take, List.length_drop] at h1
        omega

/-- The corrected read start never exceeds the file size. -/
theorem read_start_le (t : FileTail) (content : List Nat) :
    read_start t content ≤ content.length := by
  unfold read_start; split <;> omega

/-- Big-endian decoding inverts the `u32` byte decomposition below the
32-bit bound. -/
theorem beDecode_u32_be (n : Nat) (h : n < 2 ^ 32) : beDecode (u32_be n) = n := by
  simp only [beDecode, u32_be, List.foldl]
  omega

/-- C1: `Frame.encode` produces exactly a 4-byte big-endian u32 equal to
payload length + 1, then one message-type byte (Handshake = 0x01,
LogData = 0x02, Keepalive = 0xFF), then the payload verbatim; the result
has length 5 + payload length. Encoding is a total function of the
frame, hence deterministic and never failing; the length field reads
back as payload length + 1 whenever it fits in 32 bits. -/
theorem frame_encode_wire_format (f : Frame) (h : f.payload.length + 1 < 2 ^ 32) :
    f.encode.length = 5 + f.payload.length
    ∧ f.encode.take 4 = u32_be (f.payload.length + 1)
    ∧ beDecode (f.encode.take 4) = f.payload.length + 1
    ∧ f.encode.drop 4 = f.message_type.toByte :: f.payload
    ∧ MessageType.Handshake.toByte = 0x01
    ∧ MessageType.LogData.toByte = 0x02
    ∧ MessageType.Keepalive.toByte = 0xFF := by
  have htake : f.encode.take 4 = u32_be (f.payload.length + 1) := by
    simp [Frame.encode, u32_be]
  refine ⟨?_, htake, ?_, ?_, rfl, rfl, rfl⟩
  · simp [Frame.encode, u32_be]; omega
  · rw [htake]; exact beDecode_u32_be _ h
  · simp [Frame.encode, u32_be]

/-- Witness for C1 at a concrete frame. -/
theorem frame_encode_wire_format_witness :
    (Frame.new .LogData [65, 66]).payload.length + 1 < 2 ^ 32
    ∧ (Frame.new .LogData [65, 66]).encode.length = 5 + 2 := by
  refine ⟨by decide, ?_⟩
  have h := (frame_encode_wire_format (Frame.new .LogData [65, 66]) (by decide)).1
  simpa using h

/-- C2: evaluation of the code at the failing input. The handshake
frame built for project name "p" serializes only
`\x7b"project_name":"p","version":1\x7d`; the bytes of the key
`agent_id` occur nowhere in the payload, although the claim (and
`main.rs`, which derives an agent id and passes it to
`ConnectionConfig::new`) requires the payload to carry the agent id.
The last conjunct shows the part of the claim the code does satisfy:
on connect, the handshake frame is the first (and only) bytes written
to a fresh stream, before any LogData. -/
theorem handshake_payload_no_agent_id :
    (Frame.handshake "p").message_type = .Handshake
    ∧ (Frame.handshake "p").payload
        = strBytes "\x7b\"project_name\":\"p\",\"version\":1\x7d"
    ∧ bytesContain (Frame.handshake "p").payload (strBytes "agent_id") = false
    ∧ (Connection.connect (Connection.new (ConnectionConfig.new "srv" "p"))).stream
        = some (Frame.handshake "p").encode :=
  ⟨rfl, by decide, by decide, rfl⟩

/-- C3: decoding the bytes produced by `encode` yields the original
frame back, for every message type and every payload whose length + 1
fits the 32-bit length field (which covers lengths 0 up to well past
1 MiB). The decoder is modelled from the spec since the agent's sources
only encode. -/
theorem decode_encode_roundtrip (f : Frame) (h : f.payload.length + 1 < 2 ^ 32) :
    Frame.decode f.encode = some f := by
  obtain ⟨mt, p⟩ := f
  have hbe : beDecode (u32_be (p.length + 1)) = p.length + 1 := beDecode_u32_be _ h
  simp only [u32_be] at hbe
  simp only [Frame.encode, Frame.decode, u32_be, List.cons_append, List.nil_append]
  simp only [hbe, if_pos rfl]
  cases mt <;> rfl

/-- Witness for C3 at a concrete frame. -/
theorem decode_encode_roundtrip_witness :
    Frame.decode (Frame.new .Handshake [104, 105]).encode
      = some (Frame.new .Handshake [104, 105]) :=
  decode_encode_roundtrip (Frame.new .Handshake [104, 105]) (by decide)

/-- C4, counterexample to the claim as stated: with stored offset 5 and
a truncated file of 2 bytes, the very call that detects the truncation
already returns data (the whole new file), instead of reporting no data
for that cycle. -/
theorem truncation_read_returns_data :
    (FileTail.read_new_content ⟨5, 64 * 1024⟩ [97, 98]).1 ≠ none := by decide

/-- C4, amended: when the stored offset exceeds the current file size,
`read_new_content` resets the offset to 0 and, in the same call,
returns the first `min (file size) buffer_size` bytes of the new file,
advancing the offset past them; it reports no data for the cycle only
when the new file is empty. -/
theorem read_after_truncation (t : FileTail) (content : List Nat)
    (h : content.length < t.offset) :
    (content ≠ [] → 0 < t.buffer_size →
      (t.read_new_content content).1
          = some (content.take (min content.length t.buffer_size))
      ∧ (t.read_new_content content).2.offset = min content.length t.buffer_size)
    ∧ (content = [] →
      (t.read_new_content content).1 = none
      ∧ (t.read_new_content content).2.offset = 0) := by
  have hstart : read_start t content = 0 := by
    unfold read_start
    rw [if_pos h]
  have hlen : read_len t content = min content.length t.buffer_size := by
    unfold read_len
    rw [hstart]
    simp
  constructor
  · intro hne hbuf
    have hn : ¬ read_len t content = 0 := by
      rw [hlen]
      have : 0 < content.length := List.length_pos.mpr hne
      omega
    rw [read_new_content_eq, if_neg hn]
    rw [hstart, hlen]
    simp
  · intro he
    subst he
    have hn : read_len t [] = 0 := by rw [hlen]; simp
    rw [read_new_content_eq, if_pos hn, hstart]
    simp

/-- Witness for the amended C4 at a concrete truncated file. -/
theorem read_after_truncation_witness :
    ([97, 98] : List Nat).length < (⟨5, 64 * 1024⟩ : FileTail).offset
    ∧ (FileTail.read_new_content ⟨5, 64 * 1024⟩ [97, 98]).1 = some [97, 98]
    ∧ (FileTail.read_new_content ⟨5, 64 * 1024⟩ [97, 98]).2.offset = 2 := by
  refine ⟨by decide, ?_⟩
  have h := (read_after_truncation ⟨5, 64 * 1024⟩ [97, 98] (by decide)).1
    (by decide) (by decide)
  exact ⟨by rw [h.1]; decide, by rw [h.2]; decide⟩

/-- Unfolding lemma for `backoff_waits` on a failure. -/
theorem backoff_waits_false_cons (initial max_delay d : Nat) (rest : List Bool) :
    backoff_waits initial max_delay d (false :: rest)
      = d :: backoff_waits initial max_delay (min (d * 2) max_delay) rest := rfl

/-- Unfolding lemma for `backoff_waits` on a success. -/
theorem backoff_waits_true_cons (initial max_delay d : Nat) (rest : List Bool) :
    backoff_waits initial max_delay d (true :: rest)
      = backoff_waits initial max_delay initial rest := rfl

/-- Iterating `delay := min (delay * 2) max` starting from `d` makes the
wait before the `(n+1)`-st consecutive failure `min (d * 2 ^ n) max`. -/
theorem backoff_waits_replicate (initial max_delay : Nat) :
    ∀ (n : Nat) (d : Nat), d ≤ max_delay →
      (backoff_waits initial max_delay d (List.replicate (n + 1) false)).get? n
        = some (min (d * 2 ^ n) max_delay) := by
  intro n
  induction n with
  | zero =>
    intro d hd
    rw [List.replicate_succ, backoff_waits_false_cons]
    simp [pow_zero]
    omega
  | succ n ih =>
    intro d hd
    rw [List.replicate_succ, backoff_waits_false_cons, List.get?_cons_succ,
        ih (min (d * 2) max_delay) (Nat.min_le_right _ _)]
    congr 1
    rcases Nat.le_total (d * 2) max_delay with h2 | h2
    · rw [Nat.min_eq_left h2]
      congr 1
      ring
    · rw [Nat.min_eq_right h2]
      have hp : 0 < 2 ^ n := Nat.pos_pow_of_pos n (by norm_num)
      have h1 : max_delay ≤ max_delay * 2 ^ n := Nat.le_mul_of_pos_right _ hp
      rw [Nat.min_eq_right h1]
      have h3 : max_delay ≤ d * 2 ^ (n + 1) := by
        calc max_delay ≤ d * 2 := h2
        _ ≤ d * 2 ^ (n + 1) := by
            apply Nat.mul_le_mul_left
            have : 2 ^ 1 ≤ 2 ^ (n + 1) := Nat.pow_le_pow_right (by norm_num) (by omega)
            simpa using this
      rw [Nat.min_eq_right h3]

/-- C5: starting from a fresh delay, the wait slept before the Nth
consecutive connect failure is `min (initial * 2 ^ (N - 1)) max_delay`
(with the defaults 1 s and 30 s this is `min (1 * 2 ^ (N-1)) 30` in
seconds), provided `initial ≤ max_delay` as the defaults satisfy; and
after any successful connect the delay is reset, so the next failure
waits exactly `initial` again. -/
theorem backoff_wait_formula (initial max_delay : Nat) (hm : initial ≤ max_delay) :
    (∀ N, 1 ≤ N →
      (backoff_waits initial max_delay initial (List.replicate N false)).get? (N - 1)
        = some (min (initial * 2 ^ (N - 1)) max_delay))
    ∧ (∀ (delay : Nat) (rest : List Bool),
      (backoff_waits initial max_delay delay (true :: false :: rest)).head? = some initial) := by
  constructor
  · intro N hN
    obtain ⟨n, rfl⟩ : ∃ n, N = n + 1 := ⟨N - 1, by omega⟩
    simpa using backoff_waits_replicate initial max_delay n initial hm
  · intro delay rest
    rw [backoff_waits_true_cons, backoff_waits_false_cons]
    rfl

/-- Witness for C5 with the default delays (in seconds): the 6th wait
hits the 30 s cap. -/
theorem backoff_wait_formula_witness :
    (1 : Nat) ≤ 30
    ∧ (backoff_waits 1 30 1 (List.replicate 6 false)).get? 5 = some 30 := by
  refine ⟨by norm_num, ?_⟩
  have h := (backoff_wait_formula 1 30 (by norm_num)).1 6 (by norm_num)
  simpa using h

/-- C6: for every mid-file offset, `find_line_boundary` scans the next
4096 bytes for the first newline and returns one past it when found;
otherwise it advances the offset past the leading UTF-8 continuation
bytes (bytes with high two bits 10) of that window. In particular, for
a file containing "abc\ndef\nghi\n" and tail_bytes = 5, the corrected
start offset is 8 and the initial content read is exactly "ghi\n". -/
theorem line_boundary_correction :
    (∀ (content : List Nat) (offset : Nat), 0 < offset → offset < content.length →
      FileTail.find_line_boundary content offset =
        match ((content.drop offset).take 4096).findIdx? (fun b => b == 10) with
        | some p => offset + p + 1
        | none => offset + (((content.drop offset).take 4096).takeWhile
            (fun b => b &&& 0xC0 == 0x80)).length)
    ∧ FileTail.with_tail_bytes (strBytes "abc\ndef\nghi\n") 5 =
        { offset := 8, buffer_size := 64 * 1024 }
    ∧ ((FileTail.with_tail_bytes (strBytes "abc\ndef\nghi\n") 5).read_new_content
        (strBytes "abc\ndef\nghi\n")).1 = some (strBytes "ghi\n") := by
  refine ⟨?_, by decide, by decide⟩
  intro content offset h0 hlt
  unfold FileTail.find_line_boundary
  dsimp only
  rw [if_neg (by omega)]
  have hwin : (content.drop offset).take (min 4096 (content.length - offset))
      = (content.drop offset).take 4096 := by
    have hl : (content.drop offset).length = content.length - offset := by
      simp [List.length_drop]
    rw [← hl, take_min_length]
  rw [hwin]
  rw [if_neg (by simp [List.length_take, List.length_drop]; omega)]
  cases hfi : ((content.drop offset).take 4096).findIdx? (fun b => b == 10) with
  | some pos => rfl
  | none =>
    simp only [FileTail.find_utf8_boundary, List.drop_zero]
    rw [utf8Scan_eq_takeWhile, Nat.zero_add, Nat.add_comm]

/-- Witness for C6 at a concrete mid-file offset. -/
theorem line_boundary_correction_witness :
    0 < 1 ∧ 1 < ([97, 10, 98] : List Nat).length
    ∧ FileTail.find_line_boundary [97, 10, 98] 1 = 2 := by
  refine ⟨by decide, by decide, ?_⟩
  have h := line_boundary_correction.1 [97, 10, 98] 1 (by decide) (by decide)
  simpa using h

/-- C7: the invariant `offset ≤ file size` holds right after
construction under each of the three initial-offset policies
(tail-from-end, from-start, last-N-bytes) and is re-established by
every call to `read_new_content` against the file content it read. -/
theorem tail_offset_le_file_size :
    (∀ content : List Nat, (FileTail.new content).offset ≤ content.length)
    ∧ (∀ content : List Nat, FileTail.from_start.offset ≤ content.length)
    ∧ (∀ (content : List Nat) (tail_bytes : Nat),
        (FileTail.with_tail_bytes content tail_bytes).offset ≤ content.length)
    ∧ (∀ (t : FileTail) (content : List Nat),
        ((t.read_new_content content).2).offset ≤ content.length) := by
  refine ⟨fun content => le_refl _, fun content => Nat.zero_le _, ?_, ?_⟩
  · intro content tail_bytes
    unfold FileTail.with_tail_bytes
    dsimp only
    by_cases h1 : content.length ≤ tail_bytes
    · rw [if_pos h1]
      simp
    · rw [if_neg h1]
      by_cases h2 : 0 < content.length - tail_bytes
      · rw [if_pos h2]
        exact find_line_boundary_le _ _ (by omega)
      · rw [if_neg h2]
        simp
  · intro t content
    rw [read_new_content_eq]
    have hs := read_start_le t content
    have hn : read_len t content ≤ content.length - read_start t content :=
      Nat.min_le_left _ _
    split <;> simp <;> omega

/-- C8: when the stored offset is within the file (no concurrent
shrink), a single `read_new_content` call returns at most `buffer_size`
(64 KiB) bytes even if more is available, the offset advances by
exactly the number of bytes returned, and a no-data result leaves the
offset unchanged. -/
theorem read_content_bounded (t : FileTail) (content : List Nat)
    (hb : t.buffer_size = 64 * 1024) (ho : t.offset ≤ content.length) :
    (∀ chunk, (t.read_new_content content).1 = some chunk →
      chunk.length ≤ 64 * 1024
      ∧ (t.read_new_content content).2.offset = t.offset + chunk.length)
    ∧ ((t.read_new_content content).1 = none →
      (t.read_new_content content).2.offset = t.offset) := by
  have hstart : read_start t content = t.offset := by
    unfold read_start
    rw [if_neg (by omega)]
  have hclen : ((content.drop (read_start t content)).take (read_len t content)).length
      = read_len t content := by
    simp only [List.length_take, List.length_drop]
    unfold read_len
    omega
  by_cases hn : read_len t content = 0
  · rw [read_new_content_eq, if_pos hn]
    constructor
    · intro chunk hchunk
      simp at hchunk
    · intro _
      simpa using hstart
  · rw [read_new_content_eq, if_neg hn]
    constructor
    · intro chunk hchunk
      simp only [Option.some.injEq] at hchunk
      subst hchunk
      refine ⟨?_, ?_⟩
      · rw [hclen]
        have : read_len t content ≤ t.buffer_size := Nat.min_le_right _ _
        omega
      · simp only [hstart] at hclen ⊢
        rw [hclen]
    · intro hnone
      simp at hnone

/-- Witness for C8 at a concrete file. -/
theorem read_content_bounded_witness :
    (⟨0, 64 * 1024⟩ : FileTail).buffer_size = 64 * 1024
    ∧ (⟨0, 64 * 1024⟩ : FileTail).offset ≤ ([7, 8, 9] : List Nat).length
    ∧ (FileTail.read_new_content ⟨0, 64 * 1024⟩ [7, 8, 9]).2.offset = 0 + 3 := by
  refine ⟨rfl, by decide, ?_⟩
  have h := ((read_content_bounded ⟨0, 64 * 1024⟩ [7, 8, 9] rfl (by decide)).1
    [7, 8, 9] (by decide)).2
  simpa using h

/-- C9: while connected, when the queue receive times out and more than
30 seconds have passed since the last activity, the iteration writes
exactly one Keepalive frame and no LogData; a successful keepalive
resets the activity clock, a failed one disconnects; with 30 seconds or
less elapsed, no frame is written and the state is unchanged. -/
theorem keepalive_after_idle (st : RunState) (hc : st.connected = true)
    (ht : 30 < st.since_activity) :
    (run_iter st .recvTimeout true).1 = [.keepalive]
    ∧ (run_iter st .recvTimeout true).1.count SentFrame.keepalive = 1
    ∧ (∀ d, SentFrame.logData d ∉ (run_iter st .recvTimeout true).1)
    ∧ (run_iter st .recvTimeout true).2.1.since_activity = 0
    ∧ (run_iter st .recvTimeout true).2.1.connected = st.connected
    ∧ (run_iter st .recvTimeout false).1 = []
    ∧ (run_iter st .recvTimeout false).2.1.connected = false
    ∧ (∀ sendOk, st.since_activity ≤ 30 →
        (run_iter st .recvTimeout sendOk).1 = []
        ∧ (run_iter st .recvTimeout sendOk).2.1 = st) := by
  simp only [run_iter, if_pos ht]
  refine ⟨rfl, rfl, by simp, rfl, rfl, rfl, rfl, ?_⟩
  intro sendOk hle
  omega

/-- Witness for C9 at a concrete connected, idle state. -/
theorem keepalive_after_idle_witness :
    (⟨true, 31⟩ : RunState).connected = true
    ∧ 30 < (⟨true, 31⟩ : RunState).since_activity
    ∧ (run_iter ⟨true, 31⟩ .recvTimeout true).1 = [.keepalive] :=
  ⟨rfl, by norm_num, (keepalive_after_idle ⟨true, 31⟩ rfl (by norm_num)).1⟩

/-- C10: with no stream present, both `send_data` and `send_keepalive`
return an I/O error of kind `NotConnected` and leave the connection
value (state and stream included) exactly as it was — no bytes are
written. -/
theorem send_not_connected (c : Connection) (data : List Nat) (h : c.stream = none) :
    c.send_data data = (.error (.IoError .NotConnected "Not connected"), c)
    ∧ c.send_keepalive = (.error (.IoError .NotConnected "Not connected"), c) := by
  unfold Connection.send_data Connection.send_keepalive
  rw [h]
  exact ⟨rfl, rfl⟩

/-- Witness for C10 on a freshly created (unconnected) connection. -/
theorem send_not_connected_witness :
    ((Connection.new (ConnectionConfig.new "srv" "proj")).send_data [1]
        = (.error (.IoError .NotConnected "Not connected"),
           Connection.new (ConnectionConfig.new "srv" "proj")))
    ∧ ((Connection.new (ConnectionConfig.new "srv" "proj")).send_keepalive
        = (.error (.IoError .NotConnected "Not connected"),
           Connection.new (ConnectionConfig.new "srv" "proj"))) :=
  send_not_connected (Connection.new (ConnectionConfig.new "srv" "proj")) [1] rfl
